import Mathlib

/-!
Shallow embedding of `Scripts/RunIntegrationTests.py` (volume regression
comparison harness).  Numeric values (Python floats) are modelled as exact
rationals; JSON-like dynamic values as the inductive `PyVal`; Python
exceptions as `Except String`.  Dictionaries are modelled as association
lists in insertion order (Python 3.7+ dicts preserve insertion order);
dict keys of parsed JSON reports are always strings, so report dicts carry
`String` keys.
-/

namespace IntegrationTests

/-- `SolidKey = Tuple[str, int]`: `(object_name, index)`. -/
abbrev SolidKey := String × Int

/-- A JSON-like Python value, as produced by `json.loads`. -/
inductive PyVal where
  | none
  | bool (b : Bool)
  | int (n : Int)
  | float (q : ℚ)
  | str (s : String)
  | list (xs : List PyVal)
  | dict (entries : List (String × PyVal))

/-- Python truthiness (`bool(v)`) for the modelled values. -/
def PyVal.truthy : PyVal → Bool
  | .none => false
  | .bool b => b
  | .int n => n ≠ 0
  | .float q => q ≠ 0
  | .str s => s ≠ ""
  | .list xs => !xs.isEmpty
  | .dict es => !es.isEmpty

/-- `a or b` in Python: returns `a` when truthy, else `b`. -/
def pyOr (a b : PyVal) : PyVal := if a.truthy then a else b

/-- `isinstance(v, str)`. -/
def PyVal.is_str : PyVal → Bool
  | .str _ => true
  | _ => false

/-- `isinstance(v, dict)`. -/
def PyVal.is_dict : PyVal → Bool
  | .dict _ => true
  | _ => false

/-- `isinstance(v, int)` together with the integer value.  In Python a
`bool` is an instance of `int` (`True == 1`, `False == 0`). -/
def PyVal.as_int : PyVal → Option Int
  | .int n => some n
  | .bool b => some (if b then 1 else 0)
  | _ => Option.none

/-- `isinstance(v, (int, float))` together with `float(v)`. -/
def PyVal.as_num : PyVal → Option ℚ
  | .int n => some (n : ℚ)
  | .float q => some q
  | .bool b => some (if b then 1 else 0)
  | _ => Option.none

/-- `d.get(key, default)` on a dict with string keys. -/
def dictGet (entries : List (String × PyVal)) (key : String) (default : PyVal) : PyVal :=
  match entries.find? (fun p => decide (p.1 = key)) with
  | some p => p.2
  | Option.none => default

/-- `VolumeMap = Dict[SolidKey, float]`, in insertion order. -/
abbrev VolumeMap := List (SolidKey × ℚ)

/-- Python dict lookup `m.get(k)` (keys of a genuine dict are unique). -/
def VolumeMap.get (m : VolumeMap) (k : SolidKey) : Option ℚ :=
  (m.find? (fun p => decide (p.1 = k))).map Prod.snd

/-- The keys of the map, in insertion order. -/
def VolumeMap.keys (m : VolumeMap) : List SolidKey := m.map Prod.fst

/-- `m[k] = v` on a Python dict: updates the value in place when the key is
present (keeping its position), otherwise appends the new binding. -/
def VolumeMap.insert (m : VolumeMap) (k : SolidKey) (v : ℚ) : VolumeMap :=
  match m with
  | [] => [(k, v)]
  | p :: rest => if p.1 = k then (k, v) :: rest else p :: VolumeMap.insert rest k v

/-- Body of the inner `for s in solids` loop of `extract_volumes`:
`obj_name` is the enclosing key in `report["objects"]`, `s` the solid
entry.  Returns the key/value pair inserted into the output map, or
`none` when the entry is skipped. -/
def solidFields (object_name : PyVal) (se : List (String × PyVal)) : Option (SolidKey × ℚ) :=
  let idx := dictGet se "index" .none
  let metrics := dictGet se "metrics" (.dict [])
  match metrics with
  | .dict me =>
    let vol := dictGet me "volume_mm3" .none
    match object_name, idx.as_int, vol.as_num with
    | .str name, some i, some v => some ((name, i), v)
    | _, _, _ => Option.none
  | _ => Option.none

/-- `object_name = s.get("object_name") or obj_name`, then the rest of the
loop body. -/
def solidEntry (obj_name : String) (s : PyVal) : Option (SolidKey × ℚ) :=
  match s with
  | .dict se => solidFields (pyOr (dictGet se "object_name" .none) (.str obj_name)) se
  | _ => Option.none

/-- The key/value pairs contributed by one entry of `report["objects"]`,
in traversal order. -/
def objectSolids (obj_name : String) (obj_entry : PyVal) : List (SolidKey × ℚ) :=
  match obj_entry with
  | .dict oe =>
    match dictGet oe "solids" (.list []) with
    | .list ss => ss.filterMap (solidEntry obj_name)
    | _ => []
  | _ => []

/-- All key/value pairs produced while traversing `report["objects"]`, in
traversal order (outer loop over objects in dict order, inner loop over
the solids list). -/
def solidStream (oes : List (String × PyVal)) : List (SolidKey × ℚ) :=
  (oes.map (fun p => objectSolids p.1 p.2)).flatten

/-- The map built by inserting each traversed pair in order (later entries
overwrite earlier ones with the same key, as Python dict assignment does). -/
def extract_from_objects (oes : List (String × PyVal)) : VolumeMap :=
  (solidStream oes).foldl (fun out e => VolumeMap.insert out e.1 e.2) []

/-- `extract_volumes(report)`.  `report.get("objects", {})` raises
`AttributeError` when `report` itself is not a dict; a non-dict
`report["objects"]` yields the empty map. -/
def extract_volumes (report : PyVal) : Except String VolumeMap :=
  match report with
  | .dict re =>
    match dictGet re "objects" (.dict []) with
    | .dict oes => Except.ok (extract_from_objects oes)
    | _ => Except.ok []
  | _ => Except.error "AttributeError: object has no attribute get"

/-- `CompareConfig(match_pct, abs_tol_mm3)`. -/
structure CompareConfig where
  match_pct : ℚ
  abs_tol_mm3 : ℚ
  deriving DecidableEq

/-- `required_rel_tol(match_pct)`: raises `ValueError` unless
`0 < match_pct <= 100`, else returns `1 - match_pct/100`. -/
def required_rel_tol (match_pct : ℚ) : Except String ℚ :=
  if 0 < match_pct ∧ match_pct ≤ 100 then Except.ok (1 - match_pct / 100)
  else Except.error "match_pct must be in (0, 100]."

/-- The extended value stored in `SolidDiff.rel_err`: a finite float or
`math.inf`. -/
inductive RelErr where
  | val (q : ℚ)
  | inf
  deriving DecidableEq

/-- `SolidDiff` dataclass. -/
structure SolidDiff where
  key : SolidKey
  baseline : Option ℚ
  new : Option ℚ
  rel_err : Option RelErr
  ok : Bool
  reason : String
  deriving DecidableEq

/-- Python `<` on strings: lexicographic comparison of code points. -/
def strLt : List Char → List Char → Bool
  | [], [] => false
  | [], _ :: _ => true
  | _ :: _, [] => false
  | a :: as, b :: bs =>
    if a.toNat < b.toNat then true
    else if b.toNat < a.toNat then false
    else strLt as bs

/-- The sort key `lambda k: (k[0], k[1])` of `compare_maps`: Python tuple
comparison, lexicographic by name then index. -/
def rkey (a b : SolidKey) : Prop :=
  strLt a.1.data b.1.data = true ∨ (a.1 = b.1 ∧ a.2 ≤ b.2)

instance : DecidableRel rkey := fun a b => by
  unfold rkey; infer_instance

theorem strLt_trichotomy : ∀ as bs : List Char,
    strLt as bs = true ∨ as = bs ∨ strLt bs as = true
  | [], [] => Or.inr (Or.inl rfl)
  | [], _ :: _ => Or.inl rfl
  | _ :: _, [] => Or.inr (Or.inr rfl)
  | a :: as, b :: bs => by
    rcases Nat.lt_trichotomy a.toNat b.toNat with h | h | h
    · exact Or.inl (by simp [strLt, h])
    · have hab : a = b := Char.eq_of_val_eq (UInt32.ext h)
      subst hab
      rcases strLt_trichotomy as bs with h2 | h2 | h2
      · exact Or.inl (by simp [strLt, h2])
      · exact Or.inr (Or.inl (by rw [h2]))
      · exact Or.inr (Or.inr (by simp [strLt, h2]))
    · exact Or.inr (Or.inr (by simp [strLt, h]))

theorem strLt_trans : ∀ as bs cs : List Char,
    strLt as bs = true → strLt bs cs = true → strLt as cs = true
  | [], [], _ => fun h1 _ => by simp [strLt] at h1
  | _ :: _, [], _ => fun h1 _ => by simp [strLt] at h1
  | [], _ :: _, [] => fun _ h2 => by simp [strLt] at h2
  | [], _ :: _, _ :: _ => fun _ _ => rfl
  | _ :: _, _ :: _, [] => fun _ h2 => by simp [strLt] at h2
  | a :: as, b :: bs, c :: cs => fun h1 h2 => by
    simp only [strLt] at h1 h2 ⊢
    by_cases hab : a.toNat < b.toNat
    · by_cases hbc : b.toNat < c.toNat
      · simp [Nat.lt_trans hab hbc]
      · by_cases hcb : c.toNat < b.toNat
        · simp [hbc, hcb] at h2
        · have hbe : b.toNat = c.toNat :=
            Nat.le_antisymm (Nat.le_of_not_lt hcb) (Nat.le_of_not_lt hbc)
          have hac : a.toNat < c.toNat := hbe ▸ hab
          simp [hac]
    · by_cases hba : b.toNat < a.toNat
      · simp [hab, hba] at h1
      · have hae : a.toNat = b.toNat :=
          Nat.le_antisymm (Nat.le_of_not_lt hba) (Nat.le_of_not_lt hab)
        rw [if_neg hab, if_neg hba] at h1
        by_cases hbc : b.toNat < c.toNat
        · have hac : a.toNat < c.toNat := by rw [hae]; exact hbc
          simp [hac]
        · by_cases hcb : c.toNat < b.toNat
          · simp [hbc, hcb] at h2
          · have hbe : b.toNat = c.toNat :=
              Nat.le_antisymm (Nat.le_of_not_lt hcb) (Nat.le_of_not_lt hbc)
            rw [if_neg hbc, if_neg hcb] at h2
            have hac : a.toNat = c.toNat := hae.trans hbe
            rw [hac]
            simp [Nat.lt_irrefl, strLt_trans as bs cs h1 h2]

theorem strLt_irrefl : ∀ as : List Char, strLt as as = false
  | [] => rfl
  | _ :: as => by simp [strLt, strLt_irrefl as]

instance : IsTotal SolidKey rkey where
  total a b := by
    rcases strLt_trichotomy a.1.data b.1.data with h | h | h
    · exact Or.inl (Or.inl h)
    · have he : a.1 = b.1 := by
        cases a1 : a.1; cases b1 : b.1
        simp only [a1, b1] at h
        exact congrArg String.mk h
      rcases Int.le_total a.2 b.2 with h2 | h2
      · exact Or.inl (Or.inr ⟨he, h2⟩)
      · exact Or.inr (Or.inr ⟨he.symm, h2⟩)
    · exact Or.inr (Or.inl h)

instance : IsTrans SolidKey rkey where
  trans a b c hab hbc := by
    rcases hab with h1 | ⟨e1, l1⟩
    · rcases hbc with h2 | ⟨e2, _⟩
      · exact Or.inl (strLt_trans _ _ _ h1 h2)
      · exact Or.inl (e2 ▸ h1)
    · rcases hbc with h2 | ⟨e2, l2⟩
      · exact Or.inl (e1 ▸ h2)
      · exact Or.inr ⟨e1.trans e2, l1.trans l2⟩

/-- The loop body of `compare_maps` for one key of the sorted union. -/
def mkDiff (rel_tol : ℚ) (cfg : CompareConfig) (baseline newMap : VolumeMap)
    (key : SolidKey) : SolidDiff :=
  match baseline.get key, newMap.get key with
  | Option.none, n =>
    ⟨key, Option.none, n, Option.none, false, "missing_in_baseline"⟩
  | some b, Option.none =>
    ⟨key, some b, Option.none, Option.none, false, "missing_in_new"⟩
  | some b, some n =>
    let denom := max |b| |n|
    let tol := max cfg.abs_tol_mm3 (rel_tol * denom)
    let err := |n - b|
    let ok := decide (err ≤ tol)
    let rel_err := if 0 < denom then RelErr.val (err / denom)
      else if err = 0 then RelErr.val 0 else RelErr.inf
    ⟨key, some b, some n, some rel_err, ok, if ok then "ok" else "volume_mismatch"⟩

/-- `compare_maps(baseline, new, cfg)`.  Calls `required_rel_tol` (which
may raise), enumerates the union of the key sets in sorted order, and
produces one `SolidDiff` per key. -/
def compare_maps (baseline newMap : VolumeMap) (cfg : CompareConfig) :
    Except String (List SolidDiff) :=
  match required_rel_tol cfg.match_pct with
  | Except.error e => Except.error e
  | Except.ok rel_tol =>
    let all_keys := (baseline.keys ++ newMap.keys).dedup
    Except.ok ((all_keys.insertionSort rkey).map (mkDiff rel_tol cfg baseline newMap))

/-- What happened to one input file before comparison, abstracting the
filesystem and the external tool: its baseline file may be missing
(line `if not baseline_path.exists()`), the tool run or the baseline
load may raise (`run_freecad_script` / `load_json` / timeout), or both
reports were obtained. -/
inductive FileInput where
  | baselineMissing
  | execFailure
  | reports (base newR : PyVal)

/-- How `main` tallies one file: `ok_files`, `mismatch_files` or
`error_files` is incremented. -/
inductive FileOutcome where
  | ok
  | mismatch
  | err
  deriving DecidableEq

/-- The per-file body of the loop in `main`: a missing baseline is counted
as a mismatch; any exception inside the `try` block (tool failure,
unreadable JSON, `AttributeError` from `extract_volumes`, `ValueError`
from `required_rel_tol` inside `compare_maps`) is counted as an error;
otherwise the file is a mismatch iff some diff has `ok = False`. -/
def processFile (cfg : CompareConfig) (fi : FileInput) : FileOutcome :=
  match fi with
  | .baselineMissing => .mismatch
  | .execFailure => .err
  | .reports base newR =>
    match extract_volumes newR, extract_volumes base with
    | Except.ok new_map, Except.ok base_map =>
      match compare_maps base_map new_map cfg with
      | Except.ok diffs => if diffs.any (fun d => !d.ok) then .mismatch else .ok
      | Except.error _ => .err
    | _, _ => .err

/-- `main` after path checks, over the discovered file list: no files is a
discovery error (return 3); otherwise every file is processed and
tallied, the summary line then evaluates
`required_rel_tol(cfg.match_pct)` (an invalid percentage raises there,
uncaught), and the exit code is 3 if any file errored, else 2 if any
file mismatched, else 0. -/
def main_exit (cfg : CompareConfig) (files : List FileInput) : Except String Nat :=
  if files.isEmpty then Except.ok 3
  else
    let outcomes := files.map (processFile cfg)
    let error_files := outcomes.count .err
    let mismatch_files := outcomes.count .mismatch
    match required_rel_tol cfg.match_pct with
    | Except.error e => Except.error e
    | Except.ok _ =>
      Except.ok (if error_files > 0 then 3 else if mismatch_files > 0 then 2 else 0)

instance {ε α : Type} [DecidableEq ε] [DecidableEq α] : DecidableEq (Except ε α) := fun x y =>
  match x, y with
  | .ok a, .ok b =>
    if h : a = b then isTrue (by rw [h]) else isFalse (by intro hc; cases hc; exact h rfl)
  | .error a, .error b =>
    if h : a = b then isTrue (by rw [h]) else isFalse (by intro hc; cases hc; exact h rfl)
  | .ok _, .error _ => isFalse (by intro hc; cases hc)
  | .error _, .ok _ => isFalse (by intro hc; cases hc)

theorem get_nil (k : SolidKey) : VolumeMap.get [] k = Option.none := rfl

theorem get_cons (p : SolidKey × ℚ) (rest : VolumeMap) (k : SolidKey) :
    VolumeMap.get (p :: rest) k = if p.1 = k then some p.2 else rest.get k := by
  by_cases h : p.1 = k <;> simp [VolumeMap.get, List.find?, h]

theorem keys_cons (p : SolidKey × ℚ) (rest : VolumeMap) :
    VolumeMap.keys (p :: rest) = p.1 :: rest.keys := rfl

theorem mem_keys_iff_get (m : VolumeMap) (k : SolidKey) :
    k ∈ m.keys ↔ ∃ v, m.get k = some v := by
  induction m with
  | nil => simp [VolumeMap.keys, get_nil]
  | cons p rest ih =>
    rw [keys_cons, get_cons]
    by_cases h : p.1 = k
    · simp [h]
    · rw [if_neg h]
      simp only [List.mem_cons]
      constructor
      · rintro (he | hm)
        · exact absurd he.symm h
        · exact ih.mp hm
      · intro hv
        exact Or.inr (ih.mpr hv)

theorem get_eq_none_iff (m : VolumeMap) (k : SolidKey) :
    m.get k = Option.none ↔ k ∉ m.keys := by
  rw [mem_keys_iff_get]
  cases h : m.get k <;> simp

theorem get_insert (m : VolumeMap) (k' : SolidKey) (v : ℚ) (k : SolidKey) :
    (m.insert k' v).get k = if k' = k then some v else m.get k := by
  induction m with
  | nil => by_cases h : k' = k <;> simp [VolumeMap.insert, get_cons, get_nil, h]
  | cons p rest ih =>
    simp only [VolumeMap.insert]
    by_cases hp : p.1 = k'
    · rw [if_pos hp, get_cons, get_cons, hp]
      by_cases hk : k' = k
      · simp [hk]
      · simp [hk]
    · rw [if_neg hp, get_cons, get_cons]
      by_cases hpk : p.1 = k
      · have hk : ¬ k' = k := fun he => hp (hpk.trans he.symm)
        simp [hpk, hk]
      · simp [hpk, ih]

theorem foldl_insert_get : ∀ (l : List (SolidKey × ℚ)) (m : VolumeMap) (k : SolidKey),
    (l.foldl (fun out e => VolumeMap.insert out e.1 e.2) m).get k =
      ((l.reverse.find? (fun e => decide (e.1 = k))).map Prod.snd).or (m.get k)
  | [], m, k => by simp
  | e :: t, m, k => by
    simp only [List.foldl_cons, List.reverse_cons, List.find?_append]
    rw [foldl_insert_get t (VolumeMap.insert m e.1 e.2) k, get_insert]
    rcases hf : t.reverse.find? (fun e' => decide (e'.1 = k)) with _ | q
    · by_cases he : e.1 = k <;> simp [List.find?, he, hf]
    · simp [hf]

/-- The value stored for a key is that of the last traversed entry with
that key. -/
theorem extract_get_eq_last (oes : List (String × PyVal)) (k : SolidKey) :
    (extract_from_objects oes).get k =
      ((solidStream oes).reverse.find? (fun e => decide (e.1 = k))).map Prod.snd := by
  unfold extract_from_objects
  rw [foldl_insert_get, get_nil]
  simp

theorem mkDiff_key (rt : ℚ) (cfg : CompareConfig) (b n : VolumeMap) (k : SolidKey) :
    (mkDiff rt cfg b n k).key = k := by
  unfold mkDiff
  split <;> rfl

theorem map_key_map_mkDiff (rt : ℚ) (cfg : CompareConfig) (b n : VolumeMap)
    (l : List SolidKey) :
    (l.map (mkDiff rt cfg b n)).map SolidDiff.key = l := by
  rw [List.map_map]
  have h : SolidDiff.key ∘ mkDiff rt cfg b n = id := funext fun k => mkDiff_key rt cfg b n k
  rw [h, List.map_id]

/-- `compare_maps` with a valid percentage: the result list explicitly. -/
theorem compare_maps_eq {baseline newMap : VolumeMap} {cfg : CompareConfig} {rt : ℚ}
    (h : required_rel_tol cfg.match_pct = Except.ok rt) :
    compare_maps baseline newMap cfg =
      Except.ok ((((baseline.keys ++ newMap.keys).dedup).insertionSort rkey).map
        (mkDiff rt cfg baseline newMap)) := by
  unfold compare_maps
  rw [h]

/-- `compare_maps` with an invalid percentage propagates the `ValueError`. -/
theorem compare_maps_error {cfg : CompareConfig} {e : String}
    (h : required_rel_tol cfg.match_pct = Except.error e) (baseline newMap : VolumeMap) :
    compare_maps baseline newMap cfg = Except.error e := by
  unfold compare_maps
  rw [h]

/-- Every diff produced by `compare_maps` is `mkDiff` of its own key. -/
theorem mem_compare_maps {baseline newMap : VolumeMap} {cfg : CompareConfig} {rt : ℚ}
    (h : required_rel_tol cfg.match_pct = Except.ok rt) {diffs : List SolidDiff}
    (hd : compare_maps baseline newMap cfg = Except.ok diffs) {d : SolidDiff}
    (hm : d ∈ diffs) : d = mkDiff rt cfg baseline newMap d.key := by
  rw [compare_maps_eq h] at hd
  cases hd
  rcases List.mem_map.mp hm with ⟨k, _, hk⟩
  rw [← hk, mkDiff_key]

/-- A key is in the union of the key sets iff `compare_maps` produced a diff
for it. -/
theorem mem_union_iff_mem_diffs {baseline newMap : VolumeMap} {cfg : CompareConfig} {rt : ℚ}
    (h : required_rel_tol cfg.match_pct = Except.ok rt) {diffs : List SolidDiff}
    (hd : compare_maps baseline newMap cfg = Except.ok diffs) (k : SolidKey) :
    (k ∈ baseline.keys ∨ k ∈ newMap.keys) ↔ ∃ d ∈ diffs, d.key = k := by
  rw [compare_maps_eq h] at hd
  cases hd
  constructor
  · intro hk
    refine ⟨mkDiff rt cfg baseline newMap k, List.mem_map_of_mem _ ?_, mkDiff_key _ _ _ _ _⟩
    rw [List.mem_insertionSort, List.mem_dedup, List.mem_append]
    exact hk
  · rintro ⟨d, hm, hk⟩
    rcases List.mem_map.mp hm with ⟨k', hk', he⟩
    rw [List.mem_insertionSort, List.mem_dedup, List.mem_append] at hk'
    have : k' = k := by rw [← hk, ← he, mkDiff_key]
    exact this ▸ hk'

theorem mkDiff_of_both {baseline newMap : VolumeMap} {k : SolidKey} {b n : ℚ}
    (hb : baseline.get k = some b) (hn : newMap.get k = some n)
    (rt : ℚ) (cfg : CompareConfig) :
    mkDiff rt cfg baseline newMap k =
      ⟨k, some b, some n,
       some (if 0 < max |b| |n| then RelErr.val (|n - b| / max |b| |n|)
             else if |n - b| = 0 then RelErr.val 0 else RelErr.inf),
       decide (|n - b| ≤ max cfg.abs_tol_mm3 (rt * max |b| |n|)),
       if decide (|n - b| ≤ max cfg.abs_tol_mm3 (rt * max |b| |n|)) then "ok"
       else "volume_mismatch"⟩ := by
  unfold mkDiff
  rw [hb, hn]

theorem mkDiff_of_missing_new {baseline newMap : VolumeMap} {k : SolidKey} {b : ℚ}
    (hb : baseline.get k = some b) (hn : newMap.get k = Option.none)
    (rt : ℚ) (cfg : CompareConfig) :
    mkDiff rt cfg baseline newMap k =
      ⟨k, some b, Option.none, Option.none, false, "missing_in_new"⟩ := by
  unfold mkDiff
  rw [hb, hn]

theorem mkDiff_of_missing_baseline {baseline newMap : VolumeMap} {k : SolidKey}
    (hb : baseline.get k = Option.none) (rt : ℚ) (cfg : CompareConfig) :
    mkDiff rt cfg baseline newMap k =
      ⟨k, Option.none, newMap.get k, Option.none, false, "missing_in_baseline"⟩ := by
  unfold mkDiff
  rw [hb]

/-- C1: for a key present in both maps with values `b` and `n`,
`compare_maps` computes `err = |n - b|`, `denom = max(|b|, |n|)`,
`threshold = max(absoluteTolerance, relativeTolerance * denom)` with
`relativeTolerance = 1 - matchPercent/100`; the outcome passes iff
`err <= threshold`; the reported relative error is `err/denom` when
`denom > 0`, and when `denom == 0` it is `0.0` if `err == 0` else
infinity. -/
theorem claim_C1 (baseline newMap : VolumeMap) (cfg : CompareConfig) (k : SolidKey)
    (b n : ℚ) (diffs : List SolidDiff)
    (hv : 0 < cfg.match_pct ∧ cfg.match_pct ≤ 100)
    (hcmp : compare_maps baseline newMap cfg = Except.ok diffs)
    (hb : baseline.get k = some b) (hn : newMap.get k = some n) :
    (∃ d ∈ diffs, d.key = k) ∧
    ∀ d ∈ diffs, d.key = k →
      d.baseline = some b ∧ d.new = some n ∧
      (d.ok = true ↔
        |n - b| ≤ max cfg.abs_tol_mm3 ((1 - cfg.match_pct / 100) * max |b| |n|)) ∧
      d.rel_err = some (if 0 < max |b| |n|
        then RelErr.val (|n - b| / max |b| |n|)
        else if |n - b| = 0 then RelErr.val 0 else RelErr.inf) := by
  have hrt : required_rel_tol cfg.match_pct = Except.ok (1 - cfg.match_pct / 100) := by
    unfold required_rel_tol
    rw [if_pos hv]
  constructor
  · exact (mem_union_iff_mem_diffs hrt hcmp k).mp
      (Or.inl ((mem_keys_iff_get _ _).mpr ⟨b, hb⟩))
  · intro d hd hk
    have hde := mem_compare_maps hrt hcmp hd
    rw [hk] at hde
    rw [hde, mkDiff_of_both hb hn]
    exact ⟨rfl, rfl, decide_eq_true_iff, rfl⟩

/-- C2: for `matchPercent` in `(0, 100]` the required relative tolerance is
`1 - matchPercent/100`, strictly decreasing in `matchPercent`; outside the
interval a `ValueError` is raised. -/
theorem claim_C2 (p q : ℚ) :
    (0 < p → p ≤ 100 → required_rel_tol p = Except.ok (1 - p / 100)) ∧
    (∀ rp rq : ℚ, 0 < p → p < q → q ≤ 100 →
      required_rel_tol p = Except.ok rp → required_rel_tol q = Except.ok rq → rq < rp) ∧
    (p ≤ 0 ∨ 100 < p →
      required_rel_tol p = Except.error "match_pct must be in (0, 100].") := by
  refine ⟨?_, ?_, ?_⟩
  · intro h1 h2
    unfold required_rel_tol
    rw [if_pos ⟨h1, h2⟩]
  · intro rp rq h1 hlt h2 hp hq
    unfold required_rel_tol at hp hq
    rw [if_pos ⟨h1, le_of_lt (lt_of_lt_of_le hlt h2)⟩] at hp
    rw [if_pos ⟨h1.trans hlt, h2⟩] at hq
    cases hp
    cases hq
    linarith
  · intro h
    unfold required_rel_tol
    rw [if_neg]
    rcases h with h | h
    · exact fun hc => absurd hc.1 (not_lt.mpr h)
    · exact fun hc => absurd hc.2 (not_le.mpr h)

theorem claim_C2_witness :
    required_rel_tol 50 = Except.ok (1 - 50 / 100) ∧
    required_rel_tol 0 = Except.error "match_pct must be in (0, 100]." ∧
    (1 - 100 / 100 : ℚ) < 1 - 50 / 100 := by
  refine ⟨(claim_C2 50 100).1 (by norm_num) (by norm_num),
    (claim_C2 0 0).2.2 (Or.inl le_rfl), ?_⟩
  exact (claim_C2 50 100).2.1 (1 - 50 / 100) (1 - 100 / 100) (by norm_num) (by norm_num)
    (by norm_num) ((claim_C2 50 100).1 (by norm_num) (by norm_num))
    ((claim_C2 100 0).1 (by norm_num) (by norm_num))

theorem countP_map_mkDiff (rt : ℚ) (cfg : CompareConfig) (b n : VolumeMap)
    (l : List SolidKey) (k : SolidKey) :
    (l.map (mkDiff rt cfg b n)).countP (fun d => decide (d.key = k)) =
      l.countP (fun x => decide (x = k)) := by
  induction l with
  | nil => rfl
  | cons a t ih => simp [List.countP_cons, ih, mkDiff_key]

theorem countP_dedup_eq (l : List SolidKey) (k : SolidKey) :
    l.dedup.countP (fun x => decide (x = k)) = if k ∈ l then 1 else 0 := by
  induction l with
  | nil => simp
  | cons a t ih =>
    by_cases ha : a ∈ t
    · rw [List.dedup_cons_of_mem ha, ih]
      by_cases hk : k = a
      · subst hk
        simp [List.mem_cons, ha]
      · simp [List.mem_cons, hk]
    · rw [List.dedup_cons_of_not_mem ha, List.countP_cons, ih]
      by_cases hk : k = a
      · subst hk
        simp [List.mem_cons, ha]
      · simp [List.mem_cons, hk, Ne.symm hk]

/-- C4: `compare_maps` returns exactly one outcome per key of the union of
the two key sets, none for any other key, and the outcomes are ordered by
entity name then index. -/
theorem claim_C4 (baseline newMap : VolumeMap) (cfg : CompareConfig)
    (diffs : List SolidDiff)
    (hcmp : compare_maps baseline newMap cfg = Except.ok diffs) :
    (∀ k : SolidKey, diffs.countP (fun d => decide (d.key = k)) =
        if k ∈ baseline.keys ∨ k ∈ newMap.keys then 1 else 0) ∧
    List.Sorted rkey (diffs.map SolidDiff.key) := by
  cases hrt : required_rel_tol cfg.match_pct with
  | error e =>
    rw [compare_maps_error hrt] at hcmp
    cases hcmp
  | ok rt =>
    rw [compare_maps_eq hrt] at hcmp
    cases hcmp
    constructor
    · intro k
      rw [countP_map_mkDiff,
        (List.perm_insertionSort rkey ((baseline.keys ++ newMap.keys).dedup)).countP_eq,
        countP_dedup_eq]
      simp [List.mem_append]
    · rw [map_key_map_mkDiff]
      exact List.sorted_insertionSort rkey _

/-- C6: a key present only in the baseline map yields the outcome
`missing_in_new` (fail, no relative error); a key present only in the new
map yields `missing_in_baseline` (fail, no relative error). -/
theorem claim_C6 (baseline newMap : VolumeMap) (cfg : CompareConfig)
    (diffs : List SolidDiff)
    (hcmp : compare_maps baseline newMap cfg = Except.ok diffs) (k : SolidKey) :
    (k ∈ baseline.keys → k ∉ newMap.keys →
      (∃ d ∈ diffs, d.key = k) ∧
      ∀ d ∈ diffs, d.key = k →
        d.reason = "missing_in_new" ∧ d.ok = false ∧ d.rel_err = Option.none) ∧
    (k ∉ baseline.keys → k ∈ newMap.keys →
      (∃ d ∈ diffs, d.key = k) ∧
      ∀ d ∈ diffs, d.key = k →
        d.reason = "missing_in_baseline" ∧ d.ok = false ∧ d.rel_err = Option.none) := by
  cases hrt : required_rel_tol cfg.match_pct with
  | error e =>
    rw [compare_maps_error hrt] at hcmp
    cases hcmp
  | ok rt =>
    constructor
    · intro hbk hnk
      refine ⟨(mem_union_iff_mem_diffs hrt hcmp k).mp (Or.inl hbk), ?_⟩
      intro d hd hk
      rcases (mem_keys_iff_get baseline k).mp hbk with ⟨b, hb⟩
      have hn : newMap.get k = Option.none := (get_eq_none_iff _ _).mpr hnk
      have hde := mem_compare_maps hrt hcmp hd
      rw [hk] at hde
      rw [hde, mkDiff_of_missing_new hb hn]
      exact ⟨rfl, rfl, rfl⟩
    · intro hbk hnk
      refine ⟨(mem_union_iff_mem_diffs hrt hcmp k).mp (Or.inr hnk), ?_⟩
      intro d hd hk
      have hb : baseline.get k = Option.none := (get_eq_none_iff _ _).mpr hbk
      have hde := mem_compare_maps hrt hcmp hd
      rw [hk] at hde
      rw [hde, mkDiff_of_missing_baseline hb]
      exact ⟨rfl, rfl, rfl⟩

/-- C7: when both values are exactly zero the reported relative error is
`0.0` and the outcome passes with reason `ok`, for every tolerance
configuration under which the comparison runs. -/
theorem claim_C7 (baseline newMap : VolumeMap) (cfg : CompareConfig)
    (diffs : List SolidDiff)
    (hcmp : compare_maps baseline newMap cfg = Except.ok diffs) (k : SolidKey)
    (hb : baseline.get k = some 0) (hn : newMap.get k = some 0) :
    (∃ d ∈ diffs, d.key = k) ∧
    ∀ d ∈ diffs, d.key = k →
      d.rel_err = some (RelErr.val 0) ∧ d.ok = true ∧ d.reason = "ok" := by
  cases hrt : required_rel_tol cfg.match_pct with
  | error e =>
    rw [compare_maps_error hrt] at hcmp
    cases hcmp
  | ok rt =>
    constructor
    · exact (mem_union_iff_mem_diffs hrt hcmp k).mp
        (Or.inl ((mem_keys_iff_get _ _).mpr ⟨0, hb⟩))
    · intro d hd hk
      have hde := mem_compare_maps hrt hcmp hd
      rw [hk] at hde
      rw [hde, mkDiff_of_both hb hn]
      have hd0 : max |(0:ℚ)| |(0:ℚ)| = 0 := by
        rw [abs_zero, max_self]
      have herr : |(0:ℚ) - 0| = 0 := by
        rw [sub_zero, abs_zero]
      have hok : decide (|(0:ℚ) - 0| ≤ max cfg.abs_tol_mm3 (rt * max |(0:ℚ)| |(0:ℚ)|)) = true := by
        rw [decide_eq_true_iff, herr, hd0, mul_zero]
        exact le_max_right _ _
      refine ⟨?_, ?_, ?_⟩
      · show some (if 0 < max |(0:ℚ)| |(0:ℚ)| then RelErr.val (|(0:ℚ) - 0| / max |(0:ℚ)| |(0:ℚ)|)
            else if |(0:ℚ) - 0| = 0 then RelErr.val 0 else RelErr.inf) = some (RelErr.val 0)
        rw [if_neg (by rw [hd0]; exact lt_irrefl 0), if_pos herr]
      · exact hok
      · show (if decide (|(0:ℚ) - 0| ≤ max cfg.abs_tol_mm3 (rt * max |(0:ℚ)| |(0:ℚ)|))
            then "ok" else "volume_mismatch") = "ok"
        rw [hok]
        rfl

/-- Sample configuration: `--match-pct 100 --abs-tol-mm3 0`. -/
def cfgExact : CompareConfig := ⟨100, 0⟩

def mapA4 : VolumeMap := [(("A", 0), 4)]

def mapA5 : VolumeMap := [(("A", 0), 5)]

def mapB7 : VolumeMap := [(("B", 1), 7)]

def mapZ0 : VolumeMap := [(("Z", 2), 0)]

theorem rel_tol_cfgExact : required_rel_tol cfgExact.match_pct = Except.ok 0 := by
  norm_num [required_rel_tol, cfgExact]

theorem compare_A4_A5 :
    compare_maps mapA4 mapA5 cfgExact =
      Except.ok [mkDiff 0 cfgExact mapA4 mapA5 ("A", 0)] := by
  rw [compare_maps_eq rel_tol_cfgExact,
    show ((mapA4.keys ++ mapA5.keys).dedup.insertionSort rkey) = [("A", 0)] by decide]
  rfl

theorem compare_A4_B7 :
    compare_maps mapA4 mapB7 cfgExact =
      Except.ok [mkDiff 0 cfgExact mapA4 mapB7 ("A", 0),
                 mkDiff 0 cfgExact mapA4 mapB7 ("B", 1)] := by
  rw [compare_maps_eq rel_tol_cfgExact,
    show ((mapA4.keys ++ mapB7.keys).dedup.insertionSort rkey) = [("A", 0), ("B", 1)]
      by decide]
  rfl

theorem compare_Z0_Z0 :
    compare_maps mapZ0 mapZ0 cfgExact =
      Except.ok [mkDiff 0 cfgExact mapZ0 mapZ0 ("Z", 2)] := by
  rw [compare_maps_eq rel_tol_cfgExact,
    show ((mapZ0.keys ++ mapZ0.keys).dedup.insertionSort rkey) = [("Z", 2)] by decide]
  rfl

theorem claim_C1_witness :
    compare_maps mapA4 mapA5 cfgExact =
      Except.ok [mkDiff 0 cfgExact mapA4 mapA5 ("A", 0)] ∧
    (mkDiff 0 cfgExact mapA4 mapA5 ("A", 0)).baseline = some 4 ∧
    (mkDiff 0 cfgExact mapA4 mapA5 ("A", 0)).new = some 5 ∧
    (mkDiff 0 cfgExact mapA4 mapA5 ("A", 0)).ok = false ∧
    (mkDiff 0 cfgExact mapA4 mapA5 ("A", 0)).rel_err = some (RelErr.val (1 / 5)) := by
  have hb : mapA4.get ("A", 0) = some 4 := by simp [mapA4, get_cons]
  have hn : mapA5.get ("A", 0) = some 5 := by simp [mapA5, get_cons]
  have h := claim_C1 mapA4 mapA5 cfgExact ("A", 0) 4 5
    [mkDiff 0 cfgExact mapA4 mapA5 ("A", 0)]
    (by norm_num [cfgExact]) compare_A4_A5 hb hn
  have hp := h.2 (mkDiff 0 cfgExact mapA4 mapA5 ("A", 0)) (by simp)
    (mkDiff_key 0 cfgExact mapA4 mapA5 ("A", 0))
  have habs : max |(4:ℚ)| |(5:ℚ)| = 5 := by
    rw [abs_of_nonneg (by norm_num : (0:ℚ) ≤ 4), abs_of_nonneg (by norm_num : (0:ℚ) ≤ 5)]
    exact max_eq_right (by norm_num)
  have herr : |(5:ℚ) - 4| = 1 := by
    rw [show (5:ℚ) - 4 = 1 by norm_num, abs_one]
  refine ⟨compare_A4_A5, hp.1, hp.2.1, ?_, ?_⟩
  · cases hok : (mkDiff 0 cfgExact mapA4 mapA5 ("A", 0)).ok
    · rfl
    · exfalso
      have h1 := hp.2.2.1.mp hok
      rw [habs, herr] at h1
      have : max cfgExact.abs_tol_mm3 ((1 - cfgExact.match_pct / 100) * 5) = 0 := by
        norm_num [cfgExact]
      rw [this] at h1
      norm_num at h1
  · rw [hp.2.2.2, herr, habs, if_pos (by norm_num : (0:ℚ) < 5)]

theorem claim_C4_witness :
    compare_maps mapA4 mapB7 cfgExact =
      Except.ok [mkDiff 0 cfgExact mapA4 mapB7 ("A", 0),
                 mkDiff 0 cfgExact mapA4 mapB7 ("B", 1)] ∧
    [mkDiff 0 cfgExact mapA4 mapB7 ("A", 0),
     mkDiff 0 cfgExact mapA4 mapB7 ("B", 1)].countP
        (fun d => decide (d.key = (("A", 0) : SolidKey))) = 1 ∧
    List.Sorted rkey ([mkDiff 0 cfgExact mapA4 mapB7 ("A", 0),
                       mkDiff 0 cfgExact mapA4 mapB7 ("B", 1)].map SolidDiff.key) := by
  have h := claim_C4 mapA4 mapB7 cfgExact
    [mkDiff 0 cfgExact mapA4 mapB7 ("A", 0), mkDiff 0 cfgExact mapA4 mapB7 ("B", 1)]
    compare_A4_B7
  refine ⟨compare_A4_B7, ?_, h.2⟩
  rw [h.1 ("A", 0), if_pos (Or.inl (show (("A", 0) : SolidKey) ∈ mapA4.keys by decide))]

theorem claim_C6_witness :
    (mkDiff 0 cfgExact mapA4 mapB7 ("A", 0)).reason = "missing_in_new" ∧
    (mkDiff 0 cfgExact mapA4 mapB7 ("A", 0)).ok = false ∧
    (mkDiff 0 cfgExact mapA4 mapB7 ("B", 1)).reason = "missing_in_baseline" ∧
    (mkDiff 0 cfgExact mapA4 mapB7 ("B", 1)).ok = false := by
  have h := claim_C6 mapA4 mapB7 cfgExact
    [mkDiff 0 cfgExact mapA4 mapB7 ("A", 0), mkDiff 0 cfgExact mapA4 mapB7 ("B", 1)]
    compare_A4_B7
  have h1 := ((h ("A", 0)).1 (by decide) (by decide)).2
    (mkDiff 0 cfgExact mapA4 mapB7 ("A", 0)) (by simp)
    (mkDiff_key 0 cfgExact mapA4 mapB7 ("A", 0))
  have h2 := ((h ("B", 1)).2 (by decide) (by decide)).2
    (mkDiff 0 cfgExact mapA4 mapB7 ("B", 1)) (by simp)
    (mkDiff_key 0 cfgExact mapA4 mapB7 ("B", 1))
  exact ⟨h1.1, h1.2.1, h2.1, h2.2.1⟩

theorem claim_C7_witness :
    compare_maps mapZ0 mapZ0 cfgExact =
      Except.ok [mkDiff 0 cfgExact mapZ0 mapZ0 ("Z", 2)] ∧
    (mkDiff 0 cfgExact mapZ0 mapZ0 ("Z", 2)).rel_err = some (RelErr.val 0) ∧
    (mkDiff 0 cfgExact mapZ0 mapZ0 ("Z", 2)).ok = true ∧
    (mkDiff 0 cfgExact mapZ0 mapZ0 ("Z", 2)).reason = "ok" := by
  have hz : mapZ0.get ("Z", 2) = some 0 := by simp [mapZ0, get_cons]
  have h := claim_C7 mapZ0 mapZ0 cfgExact
    [mkDiff 0 cfgExact mapZ0 mapZ0 ("Z", 2)] compare_Z0_Z0 ("Z", 2) hz hz
  have hp := h.2 (mkDiff 0 cfgExact mapZ0 mapZ0 ("Z", 2)) (by simp)
    (mkDiff_key 0 cfgExact mapZ0 mapZ0 ("Z", 2))
  exact ⟨compare_Z0_Z0, hp.1, hp.2.1, hp.2.2⟩

/-- C3 counterexample: on a top-level input that is not a mapping-like
structure, `extract_volumes` raises `AttributeError` instead of returning
an empty map, so it does not succeed on every input. -/
theorem claim_C3_counterexample :
    extract_volumes (PyVal.list []) =
      Except.error "AttributeError: object has no attribute get" ∧
    extract_volumes (PyVal.list []) ≠ Except.ok [] :=
  ⟨rfl, fun h => Except.noConfusion h⟩

/-- C3 amended: `extract_volumes` never raises on any *dict* input, however
malformed its nested contents — it returns a (possibly empty) map; but on
a top-level input that is not a dict it raises `AttributeError` (from
`report.get`) rather than returning an empty map. -/
theorem claim_C3_theorem (report : PyVal) :
    (report.is_dict = true → ∃ m, extract_volumes report = Except.ok m) ∧
    (report.is_dict = false →
      extract_volumes report =
        Except.error "AttributeError: object has no attribute get") := by
  constructor
  · intro h
    cases report with
    | dict re =>
      cases hob : dictGet re "objects" (PyVal.dict []) with
      | dict oes => exact ⟨extract_from_objects oes, by simp only [extract_volumes]; rw [hob]⟩
      | none => exact ⟨[], by simp only [extract_volumes]; rw [hob]⟩
      | bool b => exact ⟨[], by simp only [extract_volumes]; rw [hob]⟩
      | int n => exact ⟨[], by simp only [extract_volumes]; rw [hob]⟩
      | float q => exact ⟨[], by simp only [extract_volumes]; rw [hob]⟩
      | str s => exact ⟨[], by simp only [extract_volumes]; rw [hob]⟩
      | list xs => exact ⟨[], by simp only [extract_volumes]; rw [hob]⟩
    | none => simp [PyVal.is_dict] at h
    | bool b => simp [PyVal.is_dict] at h
    | int n => simp [PyVal.is_dict] at h
    | float q => simp [PyVal.is_dict] at h
    | str s => simp [PyVal.is_dict] at h
    | list xs => simp [PyVal.is_dict] at h
  · intro h
    cases report with
    | dict re => simp [PyVal.is_dict] at h
    | none => rfl
    | bool b => rfl
    | int n => rfl
    | float q => rfl
    | str s => rfl
    | list xs => rfl

theorem claim_C3_witness :
    (extract_volumes (PyVal.dict [("objects", PyVal.int 7)])).isOk = true ∧
    extract_volumes (PyVal.list [PyVal.int 3]) =
      Except.error "AttributeError: object has no attribute get" := by
  constructor
  · obtain ⟨m, hm⟩ := (claim_C3_theorem (PyVal.dict [("objects", PyVal.int 7)])).1 rfl
    rw [hm]
    rfl
  · exact (claim_C3_theorem (PyVal.list [PyVal.int 3])).2 rfl

/-- C9: on a report whose `objects` member is a dict, the extracted map
assigns each composite key the value of the *last* solid entry with that
key in traversal order (later entries overwrite earlier ones). -/
theorem claim_C9 (oes : List (String × PyVal)) (k : SolidKey) :
    extract_volumes (PyVal.dict [("objects", PyVal.dict oes)]) =
      Except.ok (extract_from_objects oes) ∧
    (extract_from_objects oes).get k =
      ((solidStream oes).reverse.find? (fun e => decide (e.1 = k))).map Prod.snd := by
  constructor
  · simp only [extract_volumes]
    rw [show dictGet [("objects", PyVal.dict oes)] "objects" (PyVal.dict []) =
      PyVal.dict oes from rfl]
  · exact extract_get_eq_last oes k

theorem solidFields_nonstr (ob : PyVal) (se : List (String × PyVal))
    (h : ob.is_str = false) : solidFields ob se = Option.none := by
  cases ob
  case str s => simp [PyVal.is_str] at h
  all_goals
    simp only [solidFields]
  all_goals
    cases hm : dictGet se "metrics" (PyVal.dict []) <;> rfl

/-- C10: the fallback to the enclosing object's key happens exactly when
the solid's `object_name` field is absent or falsy; when the field is
present, truthy and not a string the entry is dropped (no fallback). -/
theorem claim_C10 (se : List (String × PyVal)) (obj_name : String) :
    ((dictGet se "object_name" PyVal.none).truthy = false →
      solidEntry obj_name (PyVal.dict se) = solidFields (PyVal.str obj_name) se) ∧
    ((dictGet se "object_name" PyVal.none).truthy = true →
      (dictGet se "object_name" PyVal.none).is_str = false →
      solidEntry obj_name (PyVal.dict se) = Option.none) ∧
    ((dictGet se "object_name" PyVal.none).truthy = true →
      solidEntry obj_name (PyVal.dict se) =
        solidFields (dictGet se "object_name" PyVal.none) se) := by
  have hyes : (dictGet se "object_name" PyVal.none).truthy = true →
      solidEntry obj_name (PyVal.dict se) =
        solidFields (dictGet se "object_name" PyVal.none) se := by
    intro ht
    show solidFields (pyOr (dictGet se "object_name" PyVal.none) (PyVal.str obj_name)) se = _
    unfold pyOr
    rw [ht]
    simp
  refine ⟨?_, ?_, hyes⟩
  · intro h
    show solidFields (pyOr (dictGet se "object_name" PyVal.none) (PyVal.str obj_name)) se =
      solidFields (PyVal.str obj_name) se
    unfold pyOr
    rw [h]
    simp
  · intro ht hs
    rw [hyes ht]
    exact solidFields_nonstr _ _ hs

theorem claim_C10_witness :
    (dictGet [("object_name", PyVal.int 5), ("index", PyVal.int 0),
        ("metrics", PyVal.dict [("volume_mm3", PyVal.int 1)])]
      "object_name" PyVal.none).truthy = true ∧
    solidEntry "Box" (PyVal.dict [("object_name", PyVal.int 5), ("index", PyVal.int 0),
        ("metrics", PyVal.dict [("volume_mm3", PyVal.int 1)])]) = Option.none ∧
    (dictGet [("index", PyVal.int 0),
        ("metrics", PyVal.dict [("volume_mm3", PyVal.int 1)])]
      "object_name" PyVal.none).truthy = false ∧
    solidEntry "Box" (PyVal.dict [("index", PyVal.int 0),
        ("metrics", PyVal.dict [("volume_mm3", PyVal.int 1)])]) =
      solidFields (PyVal.str "Box") [("index", PyVal.int 0),
        ("metrics", PyVal.dict [("volume_mm3", PyVal.int 1)])] := by
  refine ⟨by decide, ?_, by decide, ?_⟩
  · exact (claim_C10 [("object_name", PyVal.int 5), ("index", PyVal.int 0),
      ("metrics", PyVal.dict [("volume_mm3", PyVal.int 1)])] "Box").2.1 (by decide) (by decide)
  · exact (claim_C10 [("index", PyVal.int 0),
      ("metrics", PyVal.dict [("volume_mm3", PyVal.int 1)])] "Box").1 (by decide)

/-- `processFile` on a file whose two reports both extract successfully. -/
theorem processFile_reports_eq {cfg : CompareConfig} {base newR : PyVal}
    {nm bm : VolumeMap}
    (hn : extract_volumes newR = Except.ok nm) (hb : extract_volumes base = Except.ok bm) :
    processFile cfg (FileInput.reports base newR) =
      (match compare_maps bm nm cfg with
       | Except.ok diffs =>
         if diffs.any (fun d => !d.ok) then FileOutcome.mismatch else FileOutcome.ok
       | Except.error _ => FileOutcome.err) := by
  simp only [processFile, hn, hb]

/-- With an invalid percentage the run processes every file and then the
summary line raises the `ValueError` uncaught. -/
theorem main_exit_error {cfg : CompareConfig} {e : String}
    (h : required_rel_tol cfg.match_pct = Except.error e) {files : List FileInput}
    (hne : files ≠ []) : main_exit cfg files = Except.error e := by
  have hie : files.isEmpty = false := by
    rw [List.isEmpty_eq_false]
    exact hne
  simp only [main_exit, hie, Bool.false_eq_true, if_false, h]

/-- With a valid percentage `main` returns the tally-based exit code. -/
theorem main_exit_ok {cfg : CompareConfig} {rt : ℚ}
    (h : required_rel_tol cfg.match_pct = Except.ok rt) {files : List FileInput}
    (hne : files ≠ []) :
    main_exit cfg files = Except.ok
      (if (files.map (processFile cfg)).count FileOutcome.err > 0 then 3
       else if (files.map (processFile cfg)).count FileOutcome.mismatch > 0 then 2
       else 0) := by
  have hie : files.isEmpty = false := by
    rw [List.isEmpty_eq_false]
    exact hne
  simp only [main_exit, hie, Bool.false_eq_true, if_false, h]

/-- C5 counterexample: with the invalid `match_pct = 0` the run is not
aborted before file processing — a file with a missing baseline is still
tallied as a mismatch, a file reaching comparison is tallied as a per-file
execution error (the `ValueError` is caught inside the loop), and only the
summary after the loop raises. -/
theorem claim_C5_counterexample :
    required_rel_tol ((⟨0, 1⟩ : CompareConfig).match_pct) =
      Except.error "match_pct must be in (0, 100]." ∧
    processFile ⟨0, 1⟩ FileInput.baselineMissing = FileOutcome.mismatch ∧
    processFile ⟨0, 1⟩ (FileInput.reports (PyVal.dict []) (PyVal.dict [])) =
      FileOutcome.err ∧
    main_exit ⟨0, 1⟩ [FileInput.baselineMissing,
      FileInput.reports (PyVal.dict []) (PyVal.dict [])] =
      Except.error "match_pct must be in (0, 100]." := by
  have hinv : ¬(0 < (⟨0, 1⟩ : CompareConfig).match_pct ∧
      (⟨0, 1⟩ : CompareConfig).match_pct ≤ 100) :=
    fun hc => absurd hc.1 (lt_irrefl 0)
  have herr : required_rel_tol ((⟨0, 1⟩ : CompareConfig).match_pct) =
      Except.error "match_pct must be in (0, 100]." := by
    unfold required_rel_tol
    rw [if_neg hinv]
  refine ⟨herr, rfl, ?_, main_exit_error herr (by simp)⟩
  rw [processFile_reports_eq (show extract_volumes (PyVal.dict []) = Except.ok [] from rfl)
    (show extract_volumes (PyVal.dict []) = Except.ok [] from rfl), compare_maps_error herr]

/-- C5 amended: an out-of-range match percentage is not validated eagerly:
no check runs before the file loop; each file that reaches comparison has
`compare_maps` raise the `ValueError`, which `main` catches and tallies as
that file's execution error before continuing; a file with a missing
baseline is tallied as a mismatch with no validation at all; after the
loop the summary re-raises the `ValueError` uncaught. -/
theorem claim_C5_theorem (cfg : CompareConfig)
    (h : ¬(0 < cfg.match_pct ∧ cfg.match_pct ≤ 100)) :
    (∀ baseline newMap : VolumeMap,
      compare_maps baseline newMap cfg =
        Except.error "match_pct must be in (0, 100].") ∧
    (∀ base newR : PyVal,
      processFile cfg (FileInput.reports base newR) = FileOutcome.err) ∧
    processFile cfg FileInput.baselineMissing = FileOutcome.mismatch ∧
    (∀ files : List FileInput, files ≠ [] →
      main_exit cfg files = Except.error "match_pct must be in (0, 100].") := by
  have herr : required_rel_tol cfg.match_pct =
      Except.error "match_pct must be in (0, 100]." := by
    unfold required_rel_tol
    rw [if_neg h]
  refine ⟨fun b n => compare_maps_error herr b n, ?_, rfl, ?_⟩
  · intro base newR
    cases hn : extract_volumes newR with
    | error e => simp only [processFile, hn]
    | ok nm =>
      cases hb : extract_volumes base with
      | error e => simp only [processFile, hn, hb]
      | ok bm => rw [processFile_reports_eq hn hb, compare_maps_error herr]
  · intro files hne
    exact main_exit_error herr hne

theorem claim_C5_witness :
    processFile ⟨0, 1⟩ FileInput.baselineMissing = FileOutcome.mismatch ∧
    processFile ⟨0, 1⟩ (FileInput.reports (PyVal.dict []) (PyVal.dict [])) =
      FileOutcome.err ∧
    main_exit ⟨0, 1⟩ [FileInput.baselineMissing] =
      Except.error "match_pct must be in (0, 100]." := by
  have h := claim_C5_theorem ⟨0, 1⟩ (fun hc => absurd hc.1 (lt_irrefl 0))
  exact ⟨h.2.2.1, h.2.1 (PyVal.dict []) (PyVal.dict []), h.2.2.2 _ (by simp)⟩

/-- C8: exit status priority is errors > mismatches > clean (3, 2, 0), and
a missing baseline is tallied as a mismatch, never as an execution
error. -/
theorem claim_C8 (cfg : CompareConfig) (files : List FileInput) (rt : ℚ)
    (hrt : required_rel_tol cfg.match_pct = Except.ok rt) (hne : files ≠ []) :
    ((∃ f ∈ files, processFile cfg f = FileOutcome.err) →
      main_exit cfg files = Except.ok 3) ∧
    ((∀ f ∈ files, processFile cfg f ≠ FileOutcome.err) →
      (∃ f ∈ files, processFile cfg f = FileOutcome.mismatch) →
      main_exit cfg files = Except.ok 2) ∧
    ((∀ f ∈ files, processFile cfg f ≠ FileOutcome.err ∧
        processFile cfg f ≠ FileOutcome.mismatch) →
      main_exit cfg files = Except.ok 0) ∧
    processFile cfg FileInput.baselineMissing = FileOutcome.mismatch := by
  refine ⟨?_, ?_, ?_, rfl⟩
  · rintro ⟨f, hf, he⟩
    rw [main_exit_ok hrt hne, if_pos]
    exact List.count_pos_iff.mpr (he ▸ List.mem_map_of_mem (processFile cfg) hf)
  · intro hnerr hmis
    rcases hmis with ⟨f, hf, hm⟩
    have hcz : (files.map (processFile cfg)).count FileOutcome.err = 0 := by
      rw [List.count_eq_zero]
      intro hmem
      rcases List.mem_map.mp hmem with ⟨f', hf', he'⟩
      exact hnerr f' hf' he'
    rw [main_exit_ok hrt hne, hcz, if_neg (lt_irrefl 0), if_pos]
    exact List.count_pos_iff.mpr (hm ▸ List.mem_map_of_mem (processFile cfg) hf)
  · intro hall
    have hcz : (files.map (processFile cfg)).count FileOutcome.err = 0 := by
      rw [List.count_eq_zero]
      intro hmem
      rcases List.mem_map.mp hmem with ⟨f', hf', he'⟩
      exact (hall f' hf').1 he'
    have hcm : (files.map (processFile cfg)).count FileOutcome.mismatch = 0 := by
      rw [List.count_eq_zero]
      intro hmem
      rcases List.mem_map.mp hmem with ⟨f', hf', he'⟩
      exact (hall f' hf').2 he'
    rw [main_exit_ok hrt hne, hcz, hcm, if_neg (lt_irrefl 0), if_neg (lt_irrefl 0)]

theorem claim_C8_witness :
    main_exit cfgExact [FileInput.execFailure] = Except.ok 3 ∧
    main_exit cfgExact [FileInput.baselineMissing] = Except.ok 2 ∧
    main_exit cfgExact [FileInput.reports (PyVal.dict []) (PyVal.dict [])] =
      Except.ok 0 := by
  have hok : processFile cfgExact (FileInput.reports (PyVal.dict []) (PyVal.dict [])) =
      FileOutcome.ok := by
    rw [processFile_reports_eq (show extract_volumes (PyVal.dict []) = Except.ok [] from rfl)
      (show extract_volumes (PyVal.dict []) = Except.ok [] from rfl),
      compare_maps_eq rel_tol_cfgExact]
    rfl
  refine ⟨?_, ?_, ?_⟩
  · exact (claim_C8 cfgExact [FileInput.execFailure] 0 rel_tol_cfgExact (by simp)).1
      ⟨FileInput.execFailure, by simp, rfl⟩
  · refine (claim_C8 cfgExact [FileInput.baselineMissing] 0 rel_tol_cfgExact (by simp)).2.1
      ?_ ⟨FileInput.baselineMissing, by simp, rfl⟩
    intro f hf
    rw [List.mem_singleton] at hf
    subst hf
    exact fun hc => FileOutcome.noConfusion hc
  · refine (claim_C8 cfgExact [FileInput.reports (PyVal.dict []) (PyVal.dict [])] 0
      rel_tol_cfgExact (by simp)).2.2.1 ?_
    intro f hf
    rw [List.mem_singleton] at hf
    subst hf
    rw [hok]
    exact ⟨fun hc => FileOutcome.noConfusion hc, fun hc => FileOutcome.noConfusion hc⟩

end IntegrationTests
